import Mathlib

/-!
Verification of the spatial-join pipeline of `create_stops_by_commune.py`.

The pipeline loads transit-stop rows from a CSV, drops rows without
coordinates, turns each row into a geographic point, assigns each point to
the commune polygon containing it (with a nearest-commune fallback for
unmatched points inside a plausible bounding box for metropolitan France),
and finally counts stops per commune, derives a department prefix and a
composite key, and sorts the result by descending count.

The embedding models geometry abstractly: a commune carries its `code` and
`nom` attributes together with a containment predicate and a distance
function (the polygon itself only ever enters the script through the
`within` predicate of `gpd.sjoin` and the distance of `gpd.sjoin_nearest`).
Coordinates are rationals.  Python strings are Lean `String`s, with Python
slicing `s[:n]`, `str.lower` (the column names involved are ASCII) and
`str.startswith` embedded explicitly so that everything computes.

Modelling notes, recorded where they matter:
* `gpd.sjoin(..., how='left', predicate='within')` emits one row per
  (point, containing polygon) pair and a single polygon-less row for a
  point contained in no polygon; `sjoin_within` reproduces this.
* `gpd.sjoin_nearest` returns every polygon at minimal distance; the model
  resolves the (measure-zero) tie deterministically to the first polygon of
  the list at minimal distance (`nearest_commune`).
* `pandas.groupby` emits group keys in ascending key order and
  `sort_values` then reorders by descending count; since no property below
  constrains the relative order of equal-count rows, the model keeps the
  groups in `dedup` order before the final sort by descending count.
-/

namespace StopsByCommune

/-- Python `s[:n]` on a string (used for the department-code slices). -/
def py_take (s : String) (n : Nat) : String := ⟨s.data.take n⟩

/-- Python `str.startswith` : the first `p.length` characters equal `p`. -/
def startswith (s p : String) : Bool := py_take s p.length == p

/-- Lower-case an ASCII letter, as Python `str.lower` does on the ASCII
column names the script compares. -/
def lowerChar (c : Char) : Char :=
  if c.toNat ≥ 65 && c.toNat ≤ 90 then Char.ofNat (c.toNat + 32) else c

/-- Python `str.lower` (on the ASCII column names the script compares). -/
def lower (s : String) : String := ⟨s.data.map lowerChar⟩

/-- A geometric point, `Point(lon, lat)` of `create_stops_geodataframe`:
`x` is the longitude, `y` the latitude (shapely convention). -/
structure Pt where
  x : ℚ
  y : ℚ
deriving DecidableEq

/-- A commune polygon record: `code` (INSEE code) and `nom` attributes, with
the polygon geometry abstracted into its containment predicate (the
`within` test of `gpd.sjoin`) and its point-to-polygon distance (the
`distance_col` of `gpd.sjoin_nearest`). -/
structure Commune where
  code : String
  nom : String
  contains : Pt → Bool
  dist : Pt → ℚ

/-- A raw CSV row of the stops file: optional coordinates (a missing value
is `pandas` `NaN`) plus the passthrough columns. -/
structure RawStop where
  stop_lat : Option ℚ
  stop_lon : Option ℚ
  attrs : List (String × String)
deriving DecidableEq

/-- A stop row whose two coordinates are present (the output type of
`load_stops`). -/
structure Stop where
  stop_lat : ℚ
  stop_lon : ℚ
  attrs : List (String × String)
deriving DecidableEq

/-- `load_stops` (lines 52-63): read all rows and
`dropna(subset=['stop_lat', 'stop_lon'])`, keeping exactly the rows where
both coordinates are present. -/
def load_stops (rows : List RawStop) : List Stop :=
  rows.filterMap (fun r =>
    match r.stop_lat, r.stop_lon with
    | some la, some lo => some ⟨la, lo, r.attrs⟩
    | _, _ => none)

/-- A `GeoDataFrame` of stops: the rows paired with their point geometry,
plus the coordinate reference system tag. -/
structure StopsGDF where
  rows : List (Stop × Pt)
  crs : String

/-- `create_stops_geodataframe` (lines 69-77): one `Point(lon, lat)` per
row, in row order, and the fixed `crs="EPSG:4326"`. -/
def create_stops_geodataframe (stops : List Stop) : StopsGDF :=
  { rows := stops.map (fun s => (s, ⟨s.stop_lon, s.stop_lat⟩))
    crs := "EPSG:4326" }

/-- Phase 1 of `spatial_join` (line 88):
`gpd.sjoin(stops_gdf, communes_gdf, how='left', predicate='within')`.
Each point yields one row per containing commune, or a single row with no
commune attributes (`NaN`, modelled `none`) when no commune contains it. -/
def sjoin_within (stops : List (Stop × Pt)) (communes : List Commune) :
    List ((Stop × Pt) × Option Commune) :=
  stops.flatMap (fun sp =>
    match communes.filter (fun c => c.contains sp.2) with
    | [] => [(sp, none)]
    | cs => cs.map (fun c => (sp, some c)))

/-- The coordinate filter of phase 2 (lines 103-110): exclude points at
zero in either axis or outside metropolitan France
(latitude 41..52, longitude -6..10). -/
def valid_coords (p : Pt) : Bool :=
  decide (p.x ≠ 0) && decide (p.y ≠ 0) &&
  decide (p.y ≥ 41) && decide (p.y ≤ 52) &&
  decide (p.x ≥ -6) && decide (p.x ≤ 10)

/-- One folding step of the nearest-commune search: keep the closer of the
running best and the candidate (the running best on ties). -/
def nearest_step (p : Pt) (acc : Option Commune) (c : Commune) : Option Commune :=
  match acc with
  | none => some c
  | some b => if c.dist p < b.dist p then some c else acc

/-- `gpd.sjoin_nearest` for one point (lines 119-124): the commune at
minimal distance, the first of the list on (measure-zero) distance ties;
`none` when the commune list is empty. -/
def nearest_commune (communes : List Commune) (p : Pt) : Option Commune :=
  communes.foldl (nearest_step p) none

/-- `spatial_join` (lines 79-141): the phase-1 containment join, then the
merge step (lines 134-136) that overwrites, row by row via the original
index, the commune attributes of the rows that were unmatched in phase 1
and pass the coordinate filter, with the attributes of the nearest commune.
Rows matched in phase 1 are left untouched; unmatched rows failing
`valid_coords` keep their missing commune attributes. -/
def spatial_join (stops : List (Stop × Pt)) (communes : List Commune) :
    List ((Stop × Pt) × Option Commune) :=
  (sjoin_within stops communes).map (fun row =>
    match row.2 with
    | some c => (row.1, some c)
    | none =>
        if valid_coords row.1.2 then (row.1, nearest_commune communes row.1.2)
        else (row.1, none))

/-- The `n_invalid` statistic of `spatial_join` (line 113): among the stops
matched by no commune, those failing the coordinate filter. -/
def n_invalid (stops : List (Stop × Pt)) (communes : List Commune) : Nat :=
  ((stops.filter (fun sp => communes.all (fun c => !(c.contains sp.2)))).filter
    (fun sp => !(valid_coords sp.2))).length

/-- The per-point outcome of `spatial_join`: the containing commune when
one exists, otherwise the nearest commune if the point passes the
coordinate filter, otherwise nothing. -/
def resolve (communes : List Commune) (p : Pt) : Option Commune :=
  match communes.find? (fun c => c.contains p) with
  | some c => some c
  | none => if valid_coords p then nearest_commune communes p else none

/-- The recognized INSEE-code column aliases (line 158). -/
def code_aliases : List String := ["code", "code_insee", "codgeo", "insee"]

/-- The recognized commune-name column aliases (line 160). -/
def nom_aliases : List String := ["nom", "name", "libelle", "nom_commune"]

/-- The column-detection loop of `count_stops_by_commune` (lines 153-161):
scan the columns in header order, lower-casing each, and remember a column
matching the code aliases and one matching the name aliases; a later match
overwrites an earlier one. -/
def find_cols (cols : List String) : Option String × Option String :=
  cols.foldl (fun acc col =>
    (if code_aliases.contains (lower col) then some col else acc.1,
     if nom_aliases.contains (lower col) then some col else acc.2))
    (none, none)

/-- `get_dept_code` (lines 182-186): first three characters for the
overseas prefixes `97`/`98`, else first two. -/
def get_dept_code (code_insee : String) : String :=
  if startswith code_insee "97" || startswith code_insee "98" then
    py_take code_insee 3
  else py_take code_insee 2

/-- One row of the aggregate output (the reordered columns of line 194). -/
structure AggRow where
  code_dept_commune : String
  code_departement : String
  code_commune_INSEE : String
  nom_commune : String
  nb_arrets : Nat
deriving DecidableEq

/-- Descending order on the stop count, for the final
`sort_values('nb_arrets', ascending=False)`. -/
def byCountDesc (a b : AggRow) : Prop := b.nb_arrets ≤ a.nb_arrets

instance : DecidableRel byCountDesc := fun a b => Nat.decLe b.nb_arrets a.nb_arrets

instance : IsTotal AggRow byCountDesc := ⟨fun a b => Nat.le_total b.nb_arrets a.nb_arrets⟩

instance : IsTrans AggRow byCountDesc := ⟨fun _ _ _ h h' => Nat.le_trans h' h⟩

/-- The grouping frame of `count_stops_by_commune`: drop the rows with no
commune attributes (`dropna(subset=[code_col])`, line 170) and keep the
`(code, nom)` key of each remaining row (the `groupby([code_col, nom_col])`
key, line 174). -/
def agg_pairs (joined : List ((Stop × Pt) × Option Commune)) :
    List (String × String) :=
  (joined.filterMap (fun r => r.2)).map (fun c => (c.code, c.nom))

/-- One output row of the aggregation, for group key `k` (a `(code, nom)`
pair) of the grouped frame `pairs`: the derived department code
(line 188), the composite key (line 191) and the group size (line 174). -/
def mk_agg_row (pairs : List (String × String)) (k : String × String) :
    AggRow :=
  { code_dept_commune := get_dept_code k.1 ++ "-" ++ k.1
    code_departement := get_dept_code k.1
    code_commune_INSEE := k.1
    nom_commune := k.2
    nb_arrets := pairs.count k }

/-- `count_stops_by_commune` (lines 147-200) on the joined rows, on the
pipeline's schema where the detected columns are the commune attributes
`code` and `nom` (see `find_cols` and `count_stops_checked` for the
detection itself): drop the rows with no code, group by the `(code, nom)`
pair and count each group's rows (`groupby(...).size()`, line 174), derive
the department code and the composite key (lines 188-191), and sort by
descending count (line 197). -/
def count_stops_by_commune (joined : List ((Stop × Pt) × Option Commune)) :
    List AggRow :=
  List.insertionSort byCountDesc
    ((agg_pairs joined).dedup.map (mk_agg_row (agg_pairs joined)))

/-- `count_stops_by_commune` with its column-detection prologue made
explicit (lines 153-165): `cols` are the column names of the joined frame;
when no column matches the code aliases the script prints the available
columns and raises `ValueError`, modelled as `Except.error cols`. -/
def count_stops_checked (cols : List String)
    (joined : List ((Stop × Pt) × Option Commune)) :
    Except (List String) (List AggRow) :=
  match (find_cols cols).1 with
  | none => .error cols
  | some _ => .ok (count_stops_by_commune joined)

/-- The matcher-plus-aggregator pipeline on loaded stops (steps 4-6 of
`main`). -/
def pipeline1 (stops : List Stop) (communes : List Commune) : List AggRow :=
  count_stops_by_commune
    (spatial_join (create_stops_geodataframe stops).rows communes)

/-- The pipeline from the raw CSV rows (steps 3-6 of `main`). -/
def pipeline (rows : List RawStop) (communes : List Commune) : List AggRow :=
  pipeline1 (load_stops rows) communes

/-! Concrete fixtures: small communes (axis-aligned boxes as containment
predicates) and stops, used to instantiate the theorems below on closed
inputs. -/

/-- A commune shaped like the box longitude 2..3, latitude 48..49. -/
def parisC : Commune :=
  { code := "75056", nom := "Paris"
    contains := fun p =>
      decide (2 ≤ p.x) && decide (p.x ≤ 3) && decide (48 ≤ p.y) && decide (p.y ≤ 49)
    dist := fun _ => 0 }

/-- A commune shaped like the box longitude 4..5, latitude 45..46. -/
def lyonC : Commune :=
  { code := "69123", nom := "Lyon"
    contains := fun p =>
      decide (4 ≤ p.x) && decide (p.x ≤ 5) && decide (45 ≤ p.y) && decide (p.y ≤ 46)
    dist := fun p => p.x }

/-- A degenerate commune record whose identifier is the bare overseas
marker `"97"`. -/
def commune97 : Commune :=
  { code := "97", nom := "Outre-mer", contains := fun _ => false, dist := fun _ => 1 }

/-- A stop inside `parisC`. -/
def sParis : Stop := ⟨48, 2, []⟩

/-- A stop at the degenerate coordinates (0, 0). -/
def sZero : Stop := ⟨0, 0, []⟩

/-- A stop inside the metropolitan bounding box but inside no commune. -/
def sGap : Stop := ⟨50, 7, []⟩

/-- A raw CSV row for `sParis`. -/
def rawP : RawStop := ⟨some 48, some 2, []⟩

/-- A raw CSV row with a missing longitude. -/
def rawNoCoord : RawStop := ⟨some 48, none, []⟩

/-- A raw CSV row for `sZero`. -/
def rawZero : RawStop := ⟨some 0, some 0, []⟩

/-! Helper lemmas. -/

theorem find?_eq_head?_filter {α : Type} (p : α → Bool) (l : List α) :
    l.find? p = (l.filter p).head? := by
  induction l with
  | nil => rfl
  | cons a l ih =>
    by_cases h : p a
    · rw [List.find?_cons_of_pos _ h, List.filter_cons_of_pos h, List.head?_cons]
    · rw [List.find?_cons_of_neg _ h, List.filter_cons_of_neg h, ih]

theorem countP_filterMap' {α β : Type} (f : α → Option β) (p : β → Bool)
    (l : List α) :
    (l.filterMap f).countP p = l.countP (fun a => (f a).any p) := by
  induction l with
  | nil => rfl
  | cons a l ih =>
    cases hf : f a with
    | none => simp [List.filterMap_cons, hf, List.countP_cons, ih]
    | some b => simp [List.filterMap_cons, hf, List.countP_cons, ih]

theorem length_filterMap_eq_countP {α β : Type} (f : α → Option β)
    (l : List α) :
    (l.filterMap f).length = l.countP (fun a => (f a).isSome) := by
  induction l with
  | nil => rfl
  | cons a l ih =>
    cases hf : f a <;>
      simp [List.filterMap_cons, hf, List.countP_cons, ih]

theorem foldl_nearest_step_mem (p : Pt) (communes : List Commune)
    (acc : Option Commune) (c : Commune)
    (h : communes.foldl (nearest_step p) acc = some c) :
    c ∈ communes ∨ acc = some c := by
  induction communes generalizing acc with
  | nil => exact Or.inr h
  | cons c' communes ih =>
    rcases ih (nearest_step p acc c') h with hmem | hacc
    · exact Or.inl (List.mem_cons_of_mem _ hmem)
    · rcases acc with _ | b
      · simp only [nearest_step] at hacc
        obtain rfl := Option.some.inj hacc
        exact Or.inl (List.mem_cons_self ..)
      · simp only [nearest_step] at hacc
        by_cases hlt : c'.dist p < b.dist p
        · rw [if_pos hlt] at hacc
          obtain rfl := Option.some.inj hacc
          exact Or.inl (List.mem_cons_self ..)
        · rw [if_neg hlt] at hacc
          exact Or.inr hacc

theorem nearest_commune_mem {communes : List Commune} {p : Pt} {c : Commune}
    (h : nearest_commune communes p = some c) : c ∈ communes := by
  rcases foldl_nearest_step_mem p communes none c h with hmem | hacc
  · exact hmem
  · exact absurd hacc (by simp)

theorem resolve_mem {communes : List Commune} {p : Pt} {c : Commune}
    (h : resolve communes p = some c) : c ∈ communes := by
  unfold resolve at h
  rcases hf : communes.find? (fun c => c.contains p) with _ | c'
  · rw [hf] at h
    by_cases hv : valid_coords p
    · rw [if_pos hv] at h
      exact nearest_commune_mem h
    · rw [if_neg hv] at h
      exact absurd h (by simp)
  · rw [hf] at h
    obtain rfl : c' = c := by simpa using h
    exact List.mem_of_find?_eq_some hf

theorem sjoin_within_eq_map (stops : List (Stop × Pt))
    (communes : List Commune)
    (hdisj : ∀ sp ∈ stops, communes.countP (fun c => c.contains sp.2) ≤ 1) :
    sjoin_within stops communes
      = stops.map (fun sp => (sp, communes.find? (fun c => c.contains sp.2))) := by
  induction stops with
  | nil => rfl
  | cons sp stops ih =>
    have hsp : (match communes.filter (fun c => c.contains sp.2) with
        | [] => [(sp, (none : Option Commune))]
        | cs => cs.map (fun c => (sp, some c)))
        = [(sp, communes.find? (fun c => c.contains sp.2))] := by
      rcases hfil : communes.filter (fun c => c.contains sp.2) with _ | ⟨c, cs⟩
      · simp [find?_eq_head?_filter, hfil]
      · have h1 := hdisj sp (List.mem_cons_self ..)
        rw [List.countP_eq_length_filter, hfil] at h1
        have : cs = [] := by simpa using h1
        subst this
        simp [find?_eq_head?_filter, hfil]
    calc sjoin_within (sp :: stops) communes
        = (match communes.filter (fun c => c.contains sp.2) with
            | [] => [(sp, (none : Option Commune))]
            | cs => cs.map (fun c => (sp, some c)))
          ++ sjoin_within stops communes := by
          simp [sjoin_within, List.flatMap_cons]
      _ = _ := by
          rw [hsp, ih (fun x hx => hdisj x (List.mem_cons_of_mem _ hx))]
          simp

theorem spatial_join_eq_map (stops : List (Stop × Pt))
    (communes : List Commune)
    (hdisj : ∀ sp ∈ stops, communes.countP (fun c => c.contains sp.2) ≤ 1) :
    spatial_join stops communes
      = stops.map (fun sp => (sp, resolve communes sp.2)) := by
  rw [spatial_join, sjoin_within_eq_map stops communes hdisj, List.map_map]
  refine List.map_congr_left (fun sp _ => ?_)
  simp only [Function.comp]
  rcases hf : communes.find? (fun c => c.contains sp.2) with _ | c
  · simp only [resolve, hf]
    split <;> rfl
  · simp [resolve, hf]

theorem mem_count_stops {joined : List ((Stop × Pt) × Option Commune)}
    {r : AggRow} :
    r ∈ count_stops_by_commune joined
      ↔ ∃ k ∈ (agg_pairs joined).dedup, r = mk_agg_row (agg_pairs joined) k := by
  rw [count_stops_by_commune, (List.perm_insertionSort _ _).mem_iff,
    List.mem_map]
  constructor
  · rintro ⟨k, hk, rfl⟩
    exact ⟨k, hk, rfl⟩
  · rintro ⟨k, hk, rfl⟩
    exact ⟨k, hk, rfl⟩

theorem foldl_update_eq (p : String → Bool) (cols : List String)
    (a : Option String) :
    cols.foldl (fun acc c => if p c then some c else acc) a
      = (cols.reverse.find? p).or a := by
  induction cols generalizing a with
  | nil => simp
  | cons c cols ih =>
    have hsing : (List.find? p [c]).or a = if p c then some c else a := by
      by_cases hp : p c <;> simp [List.find?, hp]
    rw [List.foldl_cons, ih, List.reverse_cons, List.find?_append,
      Option.or_assoc, hsing]

theorem find_cols_foldl (cols : List String) (a b : Option String) :
    cols.foldl (fun acc col =>
        (if code_aliases.contains (lower col) then some col else acc.1,
         if nom_aliases.contains (lower col) then some col else acc.2)) (a, b)
      = (cols.foldl
          (fun acc col => if code_aliases.contains (lower col) then some col else acc) a,
         cols.foldl
          (fun acc col => if nom_aliases.contains (lower col) then some col else acc) b) := by
  induction cols generalizing a b with
  | nil => rfl
  | cons c cols ih => rw [List.foldl_cons, List.foldl_cons, List.foldl_cons, ih]

theorem find_cols_eq (cols : List String) :
    find_cols cols
      = (cols.reverse.find? (fun c => code_aliases.contains (lower c)),
         cols.reverse.find? (fun c => nom_aliases.contains (lower c))) := by
  rw [find_cols, find_cols_foldl, foldl_update_eq, foldl_update_eq,
    Option.or_none, Option.or_none]

theorem find?_reverse_eq_getLast?_filter {α : Type} (p : α → Bool)
    (l : List α) :
    l.reverse.find? p = (l.filter p).getLast? := by
  rw [find?_eq_head?_filter, List.filter_reverse, List.head?_reverse]

theorem valid_coords_eq_false {p : Pt}
    (h : p.x = 0 ∨ p.y = 0 ∨ p.y < 41 ∨ 52 < p.y ∨ p.x < -6 ∨ 10 < p.x) :
    valid_coords p = false := by
  rw [Bool.eq_false_iff]
  intro htrue
  simp only [valid_coords, Bool.and_eq_true, decide_eq_true_eq, ge_iff_le] at htrue
  obtain ⟨⟨⟨⟨⟨hx0, hy0⟩, h41⟩, h52⟩, h6⟩, h10⟩ := htrue
  rcases h with h | h | h | h | h | h
  · exact hx0 h
  · exact hy0 h
  · exact absurd h41 (not_le.mpr h)
  · exact absurd h52 (not_le.mpr h)
  · exact absurd h6 (not_le.mpr h)
  · exact absurd h10 (not_le.mpr h)

theorem py_take_length (s : String) (n : Nat) :
    (py_take s n).length = min n s.length :=
  List.length_take ..

theorem count_stops_cons_none (sp : Stop × Pt)
    (joined : List ((Stop × Pt) × Option Commune)) :
    count_stops_by_commune ((sp, none) :: joined)
      = count_stops_by_commune joined := by
  simp [count_stops_by_commune, agg_pairs, List.filterMap_cons]

theorem pipeline1_agg_pairs (stops : List Stop) (communes : List Commune)
    (hdisj : ∀ s ∈ stops,
      communes.countP (fun c => c.contains ⟨s.stop_lon, s.stop_lat⟩) ≤ 1) :
    agg_pairs (spatial_join (create_stops_geodataframe stops).rows communes)
      = (stops.filterMap (fun s => resolve communes ⟨s.stop_lon, s.stop_lat⟩)).map
          (fun c => (c.code, c.nom)) := by
  have hrows : (create_stops_geodataframe stops).rows
      = stops.map (fun s => (s, (⟨s.stop_lon, s.stop_lat⟩ : Pt))) := rfl
  have hdisj' : ∀ sp ∈ (create_stops_geodataframe stops).rows,
      communes.countP (fun c => c.contains sp.2) ≤ 1 := by
    intro sp hsp
    rw [hrows] at hsp
    rw [List.mem_map] at hsp
    obtain ⟨s, hs, rfl⟩ := hsp
    exact hdisj s hs
  rw [agg_pairs, spatial_join_eq_map _ _ hdisj', hrows, List.map_map,
    List.filterMap_map]
  rfl

theorem count_pair_eq (k : String × String) (l : List (String × String)) :
    l.count k = @List.count _ instBEqOfDecidableEq k l := by
  rw [List.count_eq_countP, @List.count_eq_countP _ instBEqOfDecidableEq]
  refine List.countP_congr (fun x _ => ?_)
  show ((x == k) = true) ↔ (decide (x = k) = true)
  simp

theorem sum_counts (joined : List ((Stop × Pt) × Option Commune)) :
    ((count_stops_by_commune joined).map AggRow.nb_arrets).sum
      = (agg_pairs joined).length := by
  rw [count_stops_by_commune,
    ((List.perm_insertionSort byCountDesc _).map AggRow.nb_arrets).sum_eq,
    List.map_map]
  have hfun : (AggRow.nb_arrets ∘ mk_agg_row (agg_pairs joined))
      = fun x => (agg_pairs joined).count x := rfl
  rw [hfun]
  simp only [count_pair_eq]
  exact List.sum_map_count_dedup_eq_length (agg_pairs joined)

theorem load_stops_length (raw : List RawStop) :
    (load_stops raw).length
      = raw.countP (fun s => s.stop_lat.isSome && s.stop_lon.isSome) := by
  rw [load_stops, length_filterMap_eq_countP]
  refine List.countP_congr (fun s _ => ?_)
  rcases s with ⟨la, lo, attrs⟩
  rcases la with _ | la <;> rcases lo with _ | lo <;> simp

/-! Claim theorems. -/

/-- C1: every aggregate output row's count equals the number of input
points whose final resolved commune code (containing commune, else nearest
fallback) equals that row's identifier.  The hypotheses hold of the real
boundary data: commune codes are pairwise distinct and commune polygons do
not overlap, so each point lies within at most one commune. -/
theorem agg_count_eq_resolved_count (stops : List Stop)
    (communes : List Commune)
    (hnodup : (communes.map Commune.code).Nodup)
    (hdisj : ∀ s ∈ stops,
      communes.countP (fun c => c.contains ⟨s.stop_lon, s.stop_lat⟩) ≤ 1)
    (r : AggRow) (hr : r ∈ pipeline1 stops communes) :
    r.nb_arrets = stops.countP (fun s =>
      (resolve communes ⟨s.stop_lon, s.stop_lat⟩).map Commune.code
        == some r.code_commune_INSEE) := by
  rw [pipeline1] at hr
  obtain ⟨k, hk, rfl⟩ := mem_count_stops.mp hr
  have hpairs := pipeline1_agg_pairs stops communes hdisj
  have hkp : k ∈ agg_pairs
      (spatial_join (create_stops_geodataframe stops).rows communes) :=
    List.mem_dedup.mp hk
  rw [hpairs] at hkp
  obtain ⟨c₀, hc₀res, hc₀key⟩ := List.mem_map.mp hkp
  obtain ⟨s₀, hs₀, hres₀⟩ := List.mem_filterMap.mp hc₀res
  have hc₀mem : c₀ ∈ communes := resolve_mem hres₀
  show (agg_pairs
      (spatial_join (create_stops_geodataframe stops).rows communes)).count k
    = _
  rw [hpairs, List.count_eq_countP, List.countP_map, countP_filterMap']
  refine List.countP_congr (fun s _ => ?_)
  rcases hres : resolve communes ⟨s.stop_lon, s.stop_lat⟩ with _ | c
  · simp
  · have hcmem : c ∈ communes := resolve_mem hres
    show ((c.code, c.nom) == k) = true ↔ (some c.code == some k.1) = true
    simp only [beq_iff_eq, Option.some.injEq]
    constructor
    · intro hpair
      exact congrArg Prod.fst hpair
    · intro hcode
      have hcc : c = c₀ := List.inj_on_of_nodup_map hnodup hcmem hc₀mem
        (hcode.trans (congrArg Prod.fst hc₀key.symm))
      rw [hcc]
      exact hc₀key

/-- Witness for C1: three stops, two inside the box commune and one
assigned to it by the nearest fallback, give its row the count 3. -/
theorem agg_count_eq_resolved_count_witness :
    (⟨"75-75056", "75", "75056", "Paris", 3⟩ : AggRow)
        ∈ pipeline1 [sParis, sParis, sGap] [parisC, lyonC]
    ∧ (⟨"75-75056", "75", "75056", "Paris", 3⟩ : AggRow).nb_arrets
        = [sParis, sParis, sGap].countP (fun s =>
            (resolve [parisC, lyonC] ⟨s.stop_lon, s.stop_lat⟩).map Commune.code
              == some "75056") :=
  ⟨by decide,
    agg_count_eq_resolved_count [sParis, sParis, sGap] [parisC, lyonC]
      (by decide) (by decide) ⟨"75-75056", "75", "75056", "Paris", 3⟩
      (by decide)⟩

/-- C3: the aggregate counts sum to at most the number of input rows with
both coordinates present, with equality exactly when every loaded point is
resolved to some commune (directly or by fallback). -/
theorem sum_counts_le_valid_points (raw : List RawStop)
    (communes : List Commune)
    (hdisj : ∀ s ∈ load_stops raw,
      communes.countP (fun c => c.contains ⟨s.stop_lon, s.stop_lat⟩) ≤ 1) :
    ((pipeline raw communes).map AggRow.nb_arrets).sum
        ≤ raw.countP (fun s => s.stop_lat.isSome && s.stop_lon.isSome)
    ∧ (((pipeline raw communes).map AggRow.nb_arrets).sum
          = raw.countP (fun s => s.stop_lat.isSome && s.stop_lon.isSome)
        ↔ ∀ s ∈ load_stops raw,
            (resolve communes ⟨s.stop_lon, s.stop_lat⟩).isSome = true) := by
  have hsum : ((pipeline raw communes).map AggRow.nb_arrets).sum
      = (load_stops raw).countP
          (fun s => (resolve communes ⟨s.stop_lon, s.stop_lat⟩).isSome) := by
    rw [pipeline, pipeline1, sum_counts, pipeline1_agg_pairs _ _ hdisj,
      List.length_map, length_filterMap_eq_countP]
  rw [hsum, ← load_stops_length raw]
  exact ⟨List.countP_le_length _, List.countP_eq_length⟩

/-- Witness for C3: of three raw rows, one lacks a coordinate and one loads
but resolves nowhere, so the counts sum to 1 < 2 and the equality
characterization yields a false right-hand side. -/
theorem sum_counts_le_valid_points_witness :
    ((pipeline [rawP, rawNoCoord, rawZero] [parisC]).map AggRow.nb_arrets).sum
        ≤ [rawP, rawNoCoord, rawZero].countP
            (fun s => s.stop_lat.isSome && s.stop_lon.isSome)
    ∧ (((pipeline [rawP, rawNoCoord, rawZero] [parisC]).map AggRow.nb_arrets).sum
          = [rawP, rawNoCoord, rawZero].countP
              (fun s => s.stop_lat.isSome && s.stop_lon.isSome)
        ↔ ∀ s ∈ load_stops [rawP, rawNoCoord, rawZero],
            (resolve [parisC] ⟨s.stop_lon, s.stop_lat⟩).isSome = true) :=
  sum_counts_le_valid_points [rawP, rawNoCoord, rawZero] [parisC] (by decide)

/-- C2: the merge step of `spatial_join` only modifies rows that were
unmatched after phase 1: a row of the phase-1 containment join that carries
a commune is carried unchanged, at the same position, into the merged
result. -/
theorem merge_preserves_matched (stops : List (Stop × Pt))
    (communes : List Commune) (i : Nat) (sp : Stop × Pt) (c : Commune)
    (h : (sjoin_within stops communes)[i]? = some (sp, some c)) :
    (spatial_join stops communes)[i]? = some (sp, some c) := by
  rw [spatial_join, List.getElem?_map, h]
  rfl

/-- Witness for C2: a point inside `parisC` is matched in phase 1 and its
merged row is its phase-1 row. -/
theorem merge_preserves_matched_witness :
    (sjoin_within [(sParis, ⟨2, 48⟩)] [parisC])[0]?
        = some ((sParis, ⟨2, 48⟩), some parisC)
    ∧ (spatial_join [(sParis, ⟨2, 48⟩)] [parisC])[0]?
        = some ((sParis, ⟨2, 48⟩), some parisC) :=
  ⟨rfl, merge_preserves_matched [(sParis, ⟨2, 48⟩)] [parisC] 0 (sParis, ⟨2, 48⟩) parisC rfl⟩

/-- C6: the aggregate output is sorted in descending order of count (rows
with equal counts may appear in any relative order). -/
theorem output_sorted_desc (joined : List ((Stop × Pt) × Option Commune)) :
    List.Pairwise (fun a b => b.nb_arrets ≤ a.nb_arrets)
      (count_stops_by_commune joined) :=
  List.sorted_insertionSort byCountDesc
    ((agg_pairs joined).dedup.map (mk_agg_row (agg_pairs joined)))

/-- C8: every aggregate output row has a count of at least 1: a group key
appears in the output only if at least one joined row carries it. -/
theorem output_count_pos (joined : List ((Stop × Pt) × Option Commune))
    (r : AggRow) (hr : r ∈ count_stops_by_commune joined) :
    1 ≤ r.nb_arrets := by
  obtain ⟨k, hk, rfl⟩ := mem_count_stops.mp hr
  exact List.count_pos_iff.mpr (List.mem_dedup.mp hk)

/-- Witness for C8: the single-stop aggregate has a row of count 1. -/
theorem output_count_pos_witness :
    (⟨"75-75056", "75", "75056", "Paris", 1⟩ : AggRow)
        ∈ count_stops_by_commune [((sParis, ⟨2, 48⟩), some parisC)]
    ∧ 1 ≤ (⟨"75-75056", "75", "75056", "Paris", 1⟩ : AggRow).nb_arrets :=
  ⟨by decide,
    output_count_pos [((sParis, ⟨2, 48⟩), some parisC)]
      ⟨"75-75056", "75", "75056", "Paris", 1⟩ (by decide)⟩

/-- C9: the point builder maps row `i` to exactly one point `Point(lon,
lat)` built from that row's coordinates, preserves row order and count,
and tags the collection with the fixed reference system EPSG:4326. -/
theorem point_builder_spec (stops : List Stop) :
    (create_stops_geodataframe stops).crs = "EPSG:4326"
    ∧ (create_stops_geodataframe stops).rows.length = stops.length
    ∧ ∀ i : Nat,
        (create_stops_geodataframe stops).rows[i]?
          = (stops[i]?).map (fun s => (s, Pt.mk s.stop_lon s.stop_lat)) :=
  ⟨rfl, by simp [create_stops_geodataframe],
    fun i => by
      show (stops.map (fun s => (s, Pt.mk s.stop_lon s.stop_lat)))[i]?
        = (stops[i]?).map (fun s => (s, Pt.mk s.stop_lon s.stop_lat))
      exact List.getElem?_map (fun s => (s, Pt.mk s.stop_lon s.stop_lat)) stops i⟩

/-- C10: column detection keeps the last matching column in header order,
for the code aliases and for the name aliases alike; the alias list itself
imposes no priority. -/
theorem last_matching_column_used (cols : List String) :
    find_cols cols
      = ((cols.filter (fun c => code_aliases.contains (lower c))).getLast?,
         (cols.filter (fun c => nom_aliases.contains (lower c))).getLast?) := by
  rw [find_cols_eq, find?_reverse_eq_getLast?_filter,
    find?_reverse_eq_getLast?_filter]

/-- C7: the aggregator raises the fatal error, carrying the list of
available columns, exactly when no column matches (case-insensitively) a
recognized code alias; when a matching column exists it completes
normally. -/
theorem missing_code_column_error (cols : List String)
    (joined : List ((Stop × Pt) × Option Commune)) :
    (count_stops_checked cols joined = .error cols
      ↔ ∀ col ∈ cols, code_aliases.contains (lower col) = false)
    ∧ ((∃ col ∈ cols, code_aliases.contains (lower col) = true)
      → count_stops_checked cols joined
          = .ok (count_stops_by_commune joined)) := by
  have hchar : (find_cols cols).1
      = cols.reverse.find? (fun c => code_aliases.contains (lower c)) := by
    rw [find_cols_eq]
  constructor
  · constructor
    · intro herr
      rcases hf : (find_cols cols).1 with _ | c
      · rw [hchar] at hf
        intro col hcol
        simpa using List.find?_eq_none.mp hf col (List.mem_reverse.mpr hcol)
      · rw [count_stops_checked, hf] at herr
        exact absurd herr (by simp)
    · intro hall
      have hf : (find_cols cols).1 = none := by
        rw [hchar]
        refine List.find?_eq_none.mpr (fun col hcol hcontra => ?_)
        have hb : code_aliases.contains (lower col) = true := hcontra
        rw [hall col (List.mem_reverse.mp hcol)] at hb
        exact Bool.false_ne_true hb
      rw [count_stops_checked, hf]
  · rintro ⟨col, hcol, hmatch⟩
    rcases hf : (find_cols cols).1 with _ | c
    · rw [hchar] at hf
      exact absurd hmatch
        (List.find?_eq_none.mp hf col (List.mem_reverse.mpr hcol))
    · rw [count_stops_checked, hf]

/-- Witness for C7: a frame with no code-alias column raises the error
carrying its columns; adding a `Code_INSEE` column makes it complete. -/
theorem missing_code_column_error_witness :
    count_stops_checked ["stop_name", "geometry"] [] = .error ["stop_name", "geometry"]
    ∧ count_stops_checked ["stop_name", "Code_INSEE"] []
        = .ok (count_stops_by_commune []) :=
  ⟨(missing_code_column_error ["stop_name", "geometry"] []).1.mpr (by decide),
   (missing_code_column_error ["stop_name", "Code_INSEE"] []).2
     ⟨"Code_INSEE", by decide, by decide⟩⟩

/-- C4: an unmatched point with a zero coordinate, or latitude outside
41..52, or longitude outside -6..10, is excluded from fallback matching
(it resolves to no commune), is counted in the invalid/out-of-region
statistic, and never appears in the output: the aggregate of any input
containing it equals the aggregate of the input without it. -/
theorem invalid_point_excluded (communes : List Commune) (sp : Stop × Pt)
    (stops : List (Stop × Pt))
    (hun : ∀ c ∈ communes, c.contains sp.2 = false)
    (hinv : sp.2.x = 0 ∨ sp.2.y = 0 ∨ sp.2.y < 41 ∨ 52 < sp.2.y
      ∨ sp.2.x < -6 ∨ 10 < sp.2.x) :
    resolve communes sp.2 = none
    ∧ n_invalid (sp :: stops) communes = n_invalid stops communes + 1
    ∧ count_stops_by_commune (spatial_join (sp :: stops) communes)
        = count_stops_by_commune (spatial_join stops communes) := by
  have hval := valid_coords_eq_false hinv
  have hfind : communes.find? (fun c => c.contains sp.2) = none :=
    List.find?_eq_none.mpr (fun c hc => by simp [hun c hc])
  have hfil : communes.filter (fun c => c.contains sp.2) = [] :=
    List.filter_eq_nil_iff.mpr (fun c hc => by simp [hun c hc])
  refine ⟨?_, ?_, ?_⟩
  · rw [resolve, hfind]
    rw [if_neg (by simp [hval])]
  · rw [n_invalid, n_invalid,
      List.filter_cons_of_pos (by
        simp only [List.all_eq_true, Bool.not_eq_true']
        exact hun),
      List.filter_cons_of_pos (by simp [hval])]
    rfl
  · have hjoin : spatial_join (sp :: stops) communes
        = (sp, none) :: spatial_join stops communes := by
      have hsj : sjoin_within (sp :: stops) communes
          = (sp, none) :: sjoin_within stops communes := by
        simp [sjoin_within, List.flatMap_cons, hfil]
      rw [spatial_join, hsj, List.map_cons]
      congr 1
      show (if valid_coords sp.2 = true
          then (sp, nearest_commune communes sp.2) else (sp, none))
        = (sp, (none : Option Commune))
      rw [if_neg (by simp [hval])]
    rw [hjoin, count_stops_cons_none]

/-- Witness for C4: the stop at exactly (0, 0) is excluded, counted
invalid, and absent from the output. -/
theorem invalid_point_excluded_witness :
    resolve [parisC] (⟨0, 0⟩ : Pt) = none
    ∧ n_invalid [(sZero, ⟨0, 0⟩)] [parisC] = n_invalid [] [parisC] + 1
    ∧ count_stops_by_commune (spatial_join [(sZero, ⟨0, 0⟩)] [parisC])
        = count_stops_by_commune (spatial_join [] [parisC]) :=
  invalid_point_excluded [parisC] (sZero, ⟨0, 0⟩) [] (by decide) (Or.inl rfl)

/-- Counterexample to C5 as stated: a commune whose identifier is the
two-character string "97" yields an aggregate row whose identifier starts
with "97" but whose prefix has length 2, not 3 (Python slicing `[:3]`
truncates). -/
theorem composite_key_counterexample :
    ∃ r ∈ count_stops_by_commune [((sZero, ⟨0, 0⟩), some commune97)],
      startswith r.code_commune_INSEE "97" = true
      ∧ r.code_departement.length ≠ 3 :=
  ⟨⟨"97-97", "97", "97", "Outre-mer", 1⟩, by decide, by decide, by decide⟩

/-- C5 amended: every aggregate row's composite key equals
`prefix ++ "-" ++ identifier`, the prefix is the first three characters of
the identifier when it starts with "97" or "98" and its first two
otherwise, and hence, provided the identifier has at least three
characters, the prefix has length 3 exactly when the identifier starts
with "97" or "98", otherwise length 2. -/
theorem composite_key_format (joined : List ((Stop × Pt) × Option Commune))
    (r : AggRow) (hr : r ∈ count_stops_by_commune joined) :
    r.code_dept_commune = r.code_departement ++ "-" ++ r.code_commune_INSEE
    ∧ r.code_departement = get_dept_code r.code_commune_INSEE
    ∧ (3 ≤ r.code_commune_INSEE.length →
        r.code_departement.length
          = if startswith r.code_commune_INSEE "97"
              || startswith r.code_commune_INSEE "98" then 3 else 2) := by
  obtain ⟨k, hk, rfl⟩ := mem_count_stops.mp hr
  simp only [mk_agg_row]
  refine ⟨trivial, trivial, fun hlen => ?_⟩
  rw [get_dept_code]
  by_cases h : (startswith k.1 "97" || startswith k.1 "98") = true
  · rw [if_pos h, if_pos h, py_take_length, Nat.min_eq_left hlen]
  · rw [if_neg h, if_neg h, py_take_length,
      Nat.min_eq_left (Nat.le_trans (by norm_num) hlen)]

/-- Witness for C5 amended: the five-character identifier "75056" gives the
composite key "75-75056" with a two-character prefix. -/
theorem composite_key_format_witness :
    (⟨"75-75056", "75", "75056", "Paris", 1⟩ : AggRow)
        ∈ count_stops_by_commune [((sParis, ⟨2, 48⟩), some parisC)]
    ∧ ((⟨"75-75056", "75", "75056", "Paris", 1⟩ : AggRow).code_dept_commune
        = "75" ++ "-" ++ "75056"
      ∧ "75" = get_dept_code "75056"
      ∧ (3 ≤ ("75056" : String).length →
          ("75" : String).length
            = if startswith "75056" "97" || startswith "75056" "98" then 3 else 2)) :=
  ⟨by decide,
    composite_key_format [((sParis, ⟨2, 48⟩), some parisC)]
      ⟨"75-75056", "75", "75056", "Paris", 1⟩ (by decide)⟩

end StopsByCommune
